import Mathlib

/-!
# Verification of tinyboot's boot-selection core

A shallow embedding of the parts of the tinyboot repository referenced by the
specification: the GRUB environment-block reader/writer and command runner
(`src/tinyboot/src/boot/grub.rs`), and the selection coordinator and client
handler (`src/tinyboot/tbootd/src/main.rs`).  Strings are modelled as `List
Char` where byte-level reasoning (line splitting, 1024-byte blocks) matters,
and as Lean `String` elsewhere; machine integers that cannot overflow in the
claims' ranges are modelled as `Nat`.
-/

namespace Tinyboot

/-! ## Rust string primitives used by grub.rs -/

/-- Model of Rust's `str::lines` treatment of a `\r\n` terminator: a line
terminated by `\n` has one trailing `\r` stripped. -/
def stripCR (l : List Char) : List Char :=
  if l.getLast? = some '\r' then l.dropLast else l

/-- Worker for `rustLines`: `acc` holds the current (reversed) partial line. -/
def linesGo : List Char → List Char → List (List Char)
  | [], acc => if acc.isEmpty then [] else [acc.reverse]
  | c :: rest, acc =>
    if c = '\n' then stripCR acc.reverse :: linesGo rest []
    else linesGo rest (c :: acc)

/-- Model of Rust's `str::lines`: split at `\n` (stripping a preceding `\r`),
with the final line terminator optional. -/
def rustLines (s : List Char) : List (List Char) := linesGo s []

/-- Model of Rust's `str::split_once`: split at the first occurrence of `sep`,
returning the parts before and after it, or `none` when absent. -/
def splitOnce (sep : Char) : List Char → Option (List Char × List Char)
  | [] => none
  | c :: rest =>
    if c = sep then some ([], rest)
    else (splitOnce sep rest).map (fun p => (c :: p.1, p.2))

/-! ## GRUB environment blocks (grub.rs lines 13-47) -/

/-- `GRUB_ENVIRONMENT_BLOCK_LENGTH` from grub.rs. -/
def GRUB_ENVIRONMENT_BLOCK_LENGTH : Nat := 1024

/-- First line of `GRUB_ENVIRONMENT_BLOCK_HEADER` from grub.rs. -/
def headerLine1 : List Char := "# GRUB Environment Block".data

/-- Second line of `GRUB_ENVIRONMENT_BLOCK_HEADER` from grub.rs. -/
def headerLine2 : List Char :=
  "# WARNING: Do not edit this file by tools other than grub-editenv!!!".data

/-- One `NAME=VALUE\n` line as pushed by `grub_environment_block`. -/
def entryLine (nv : List Char × List Char) : List Char :=
  nv.1 ++ '=' :: nv.2 ++ ['\n']

/-- The header plus the entry lines, before `#` padding: the contents of
`block` in `grub_environment_block` just before the fill-length check. -/
def blockBody (env : List (List Char × List Char)) : List Char :=
  headerLine1 ++ '\n' :: headerLine2 ++ '\n' :: (env.map entryLine).flatten

/-- `grub_environment_block` from grub.rs: header, `NAME=VALUE` lines, and
`#` padding to exactly 1024 bytes; fails (`none`) when header plus entries
exceed 1024 bytes. -/
def grub_environment_block (env : List (List Char × List Char)) :
    Option (List Char) :=
  let body := blockBody env
  if body.length ≤ GRUB_ENVIRONMENT_BLOCK_LENGTH then
    some (body ++ List.replicate (GRUB_ENVIRONMENT_BLOCK_LENGTH - body.length) '#')
  else
    none

/-- The folding step of `load_env` from grub.rs: a `KEY=VALUE` line whose key
passes the whitelist (an empty whitelist admits every key) is appended to the
accumulator; any other line is ignored. -/
def loadEnvStep (whitelistedVars : List (List Char))
    (acc : List (List Char × List Char)) (curr : List Char) :
    List (List Char × List Char) :=
  match splitOnce '=' curr with
  | some (k, v) =>
    if whitelistedVars.isEmpty || whitelistedVars.contains k then
      acc ++ [(k, v)]
    else acc
  | none => acc

/-- `load_env` from grub.rs: take the lines of the contents, drop lines
starting with `#`, and fold up the `KEY=VALUE` lines. -/
def load_env (contents : List Char) (whitelistedVars : List (List Char)) :
    List (List Char × List Char) :=
  ((rustLines contents).filter (fun line => line.head? ≠ some '#')).foldl
    (loadEnvStep whitelistedVars) []

/-- Well-formedness of one environment entry: exactly the conditions under
which `grub_environment_block` writes it as one line that `load_env` parses
back unchanged. -/
def wfEntry (nv : List Char × List Char) : Prop :=
  '\n' ∉ nv.1 ∧ '=' ∉ nv.1 ∧ nv.1.head? ≠ some '#' ∧ '\r' ∉ nv.1 ∧
    '\n' ∉ nv.2 ∧ '\r' ∉ nv.2

instance (nv : List Char × List Char) : Decidable (wfEntry nv) := by
  unfold wfEntry; infer_instance

/-- The lines contributed by `k` bytes of `#` padding. -/
def padLines (k : Nat) : List (List Char) :=
  if k = 0 then [] else [List.replicate k '#']

/-! ## The GRUB command runner (grub.rs lines 49-470) -/

/-- `GrubEnvironmentError` from grub.rs.  `False` is spelt `falseResult`
(`False` is a Lean keyword); `Io`/`Nix` carry their message strings. -/
inductive GrubEnvironmentError where
  | environmentBlock
  | falseResult
  | invalidArgs
  | ioError (msg : String)
  | missingEnvironmentVariable
  | nixError (msg : String)
  | notImplemented
  | parseInt
  deriving DecidableEq

/-- The evaluator's environment: `HashMap<String, String>` modelled as a
partial map. -/
def EnvMap : Type := String → Option String

/-- `HashMap::insert`. -/
def EnvMap.insert (e : EnvMap) (k v : String) : EnvMap :=
  fun s => if s = k then some v else e s

/-- `HashMap::remove`. -/
def EnvMap.remove (e : EnvMap) (k : String) : EnvMap :=
  fun s => if s = k then none else e s

/-- `HashMap::extend` over a list of key/value pairs (later pairs win). -/
def EnvMap.extendPairs (e : EnvMap) (pairs : List (List Char × List Char)) :
    EnvMap :=
  pairs.foldl (fun acc p => acc.insert (String.mk p.1) (String.mk p.2)) e

/-- The empty environment (used by concrete instantiations). -/
def emptyEnv : EnvMap := fun _ => none

/-- `s.replace(|c| matches!(c, '(' | ')'), "")` from `run_linux`/`run_initrd`. -/
def stripParens (s : String) : String :=
  String.mk (s.data.filter (fun c => !(c = '(' || c = ')')))

/-- Result of one GRUB command handler: the Rust `Result` value together with
the (possibly updated) environment, or a panic (`todo!` / `unreachable!`). -/
inductive CmdRun where
  | ret (r : Except GrubEnvironmentError Unit) (env : EnvMap)
  | panics

/-- `run_initrd` from grub.rs: skip the command name, take the next argument,
strip parentheses, store it under `initrd`. -/
def run_initrd (env : EnvMap) (args : List String) : CmdRun :=
  match args with
  | [] => .ret (.error .invalidArgs) env
  | _cmd :: rest =>
    match rest with
    | [] => .ret (.error .invalidArgs) env
    | initrd :: _ => .ret (.ok ()) (env.insert "initrd" (stripParens initrd))

/-- `run_linux` from grub.rs: the first positional (parentheses stripped) is
stored under `linux`, the remaining positionals joined with spaces under
`linux_cmdline`. -/
def run_linux (env : EnvMap) (args : List String) : CmdRun :=
  match args with
  | [] => .ret (.error .invalidArgs) env
  | _cmd :: rest =>
    match rest with
    | [] => .ret (.error .invalidArgs) env
    | kernel :: cmdlineArgs =>
      .ret (.ok ())
        ((env.insert "linux" (stripParens kernel)).insert "linux_cmdline"
          (String.intercalate " " cmdlineArgs))

/-- Rust `str::split_once` on `String`s. -/
def stringSplitOnce (sep : Char) (s : String) : Option (String × String) :=
  (splitOnce sep s.data).map (fun p => (String.mk p.1, String.mk p.2))

/-- `run_set` from grub.rs: the argument after the command name must be
`KEY=VALUE`; an empty value removes the key, otherwise it is assigned. -/
def run_set (env : EnvMap) (args : List String) : CmdRun :=
  match args[1]? >>= stringSplitOnce '=' with
  | none => .ret (.error .invalidArgs) env
  | some (var, val) =>
    if val = "" then .ret (.ok ()) (env.remove var)
    else .ret (.ok ()) (env.insert var val)

/-! ### The `test` predicates

The predicate helpers live in `src/tinyboot/src/util.rs`, which is not under
`src/`; they are modelled from the spec's predicate table (§4.4). -/

/-- Modelled from the spec: the file-system-dependent predicates of util.rs
(`-d`, `-e`, `-f`, `-s`, `-nt`, `-ot`), represented as an abstract world of
fallible boolean queries (each may fail with an I/O error, which `run_test`
propagates). -/
structure TestWorld where
  isDirectory : String → Except String Bool
  fileExists : String → Except String Bool
  isRegularFile : String → Except String Bool
  sizeGreaterThanZero : String → Except String Bool
  newerThan : String → String → Except String Bool
  olderThan : String → String → Except String Bool

/-- Modelled from the spec: base-10 digit-run parsing used by the integer
predicates of util.rs. -/
def decimalDigits (ds : List Char) : Option Nat :=
  if ds = [] then none
  else if ds.all (fun c => c.isDigit) then
    some (ds.foldl (fun n c => n * 10 + (c.toNat - 48)) 0)
  else none

/-- Modelled from the spec: base-10 integer parsing (optional sign) used by
the `test` integer comparisons of util.rs. -/
def parseInteger (s : String) : Option Int :=
  match s.data with
  | '-' :: rest => (decimalDigits rest).map (fun n => -(n : Int))
  | '+' :: rest => (decimalDigits rest).map (fun n => (n : Int))
  | ds => (decimalDigits ds).map (fun n => (n : Int))

/-- Rust `usize::from_str` (optional leading `+`, digits), used by
`boot_info`'s default-index parse. -/
def parseUsize (s : String) : Option Nat :=
  match s.data with
  | '+' :: rest => decimalDigits rest
  | ds => decimalDigits ds

/-- Result of `run_test`: a Rust `Result` or a `todo!` panic. -/
inductive TestResult where
  | res (r : Except GrubEnvironmentError Unit)
  | panics

/-- A boolean predicate outcome: `false` becomes the `False` error (exit 1). -/
def TestResult.ofBool (b : Bool) : TestResult :=
  .res (if b then .ok () else .error .falseResult)

/-- A file-query outcome: I/O errors propagate via `?` as `Io`. -/
def TestResult.ofFileQuery (q : Except String Bool) : TestResult :=
  match q with
  | .error m => .res (.error (.ioError m))
  | .ok b => .ofBool b

/-- An integer-comparison outcome: parse failures become `ParseInt`. -/
def TestResult.ofIntCmp (r : Option Bool) : TestResult :=
  match r with
  | none => .res (.error .parseInt)
  | some b => .ofBool b

/-- Modelled from the spec: both operands parsed as base-10 integers, then
compared. -/
def intCompare (op : Int → Int → Bool) (a b : String) : Option Bool :=
  match parseInteger a, parseInteger b with
  | some x, some y => some (op x y)
  | _, _ => none

/-- Modelled from the spec: `-pgt`/`-plt` strip each operand's leading run of
non-digits before parsing the remainder as base-10. -/
def prefixIntCompare (op : Int → Int → Bool) (a b : String) : Option Bool :=
  intCompare op (String.mk (a.data.dropWhile (fun c => !c.isDigit)))
    (String.mk (b.data.dropWhile (fun c => !c.isDigit)))

/-- `run_test` from grub.rs: drop the command name, then dispatch on the
argument count and shape.  The `!`, `-a`, `-o` and parenthesised forms are
`todo!()` in the source and therefore panic. -/
def run_test (w : TestWorld) (args : List String) : TestResult :=
  match args with
  | [] => .res (.error .invalidArgs)
  | _cmd :: rest =>
    match rest with
    | [] => .res (.error .invalidArgs)
    | [a] => .ofBool (a ≠ "")
    | [a, b] =>
      if a = "-d" then .ofFileQuery (w.isDirectory b)
      else if a = "-e" then .ofFileQuery (w.fileExists b)
      else if a = "-f" then .ofFileQuery (w.isRegularFile b)
      else if a = "-s" then .ofFileQuery (w.sizeGreaterThanZero b)
      else if a = "-n" then .ofBool (b ≠ "")
      else if a = "-z" then .ofBool (b = "")
      else if a = "!" then .panics
      else .res (.error .invalidArgs)
    | [x, op, y] =>
      if op = "=" then .ofBool (x = y)
      else if op = "==" then .ofBool (x = y)
      else if op = "!=" then .ofBool (x ≠ y)
      else if op = "<" then .ofBool (decide (x < y))
      else if op = "<=" then .ofBool (decide (x ≤ y))
      else if op = ">" then .ofBool (decide (y < x))
      else if op = ">=" then .ofBool (decide (y ≤ x))
      else if op = "-eq" then .ofIntCmp (intCompare (fun i j => i == j) x y)
      else if op = "-ge" then .ofIntCmp (intCompare (fun i j => j ≤ i) x y)
      else if op = "-gt" then .ofIntCmp (intCompare (fun i j => j < i) x y)
      else if op = "-le" then .ofIntCmp (intCompare (fun i j => i ≤ j) x y)
      else if op = "-lt" then .ofIntCmp (intCompare (fun i j => i < j) x y)
      else if op = "-ne" then .ofIntCmp (intCompare (fun i j => !(i == j)) x y)
      else if op = "-pgt" then .ofIntCmp (prefixIntCompare (fun i j => j < i) x y)
      else if op = "-plt" then .ofIntCmp (prefixIntCompare (fun i j => i < j) x y)
      else if op = "-nt" then .ofFileQuery (w.newerThan x y)
      else if op = "-ot" then .ofFileQuery (w.olderThan x y)
      else if op = "-a" then .panics
      else if op = "-o" then .panics
      else if x = "(" ∧ y = ")" then .panics
      else .res (.error .invalidArgs)
    | _ => .res (.error .invalidArgs)

/-! ### Argument parsing and the remaining commands

The argument structs (`SearchArgs`, `LoadEnvArgs`, `SaveEnvArgs`) are declared
in grub.rs but parsed by the external `clap` library; the parsers below model
clap's derived behaviour (a parse failure surfaces as `InvalidArgs`, exit
code 2). -/

/-- `SearchArgs` from grub.rs. -/
structure SearchArgs where
  file : Bool
  label : Bool
  fs_uuid : Bool
  no_floppy : Bool
  set : String
  name : String

/-- Model of the clap-derived parser for `SearchArgs`: boolean flags, a
required `--set` value, one required positional, and mutual exclusion of
`--file`/`--label`/`--fs-uuid`. -/
def parseSearchGo : List String → Bool → Bool → Bool → Bool →
    Option String → Option String → Except Unit SearchArgs
  | [], f, l, u, nf, set?, name? =>
    match set?, name? with
    | some s, some n =>
      if (f && l) || (f && u) || (l && u) then .error ()
      else .ok ⟨f, l, u, nf, s, n⟩
    | _, _ => .error ()
  | a :: rest, f, l, u, nf, set?, name? =>
    if a = "--file" || a = "-f" then parseSearchGo rest true l u nf set? name?
    else if a = "--label" || a = "-l" then parseSearchGo rest f true u nf set? name?
    else if a = "--fs-uuid" || a = "-u" then parseSearchGo rest f l true nf set? name?
    else if a = "--no-floppy" then parseSearchGo rest f l u true set? name?
    else if a = "--set" then
      match rest with
      | v :: rest2 => parseSearchGo rest2 f l u nf (some v) name?
      | [] => .error ()
    else if a.startsWith "--set=" then
      parseSearchGo rest f l u nf (some (a.drop 6)) name?
    else if a.startsWith "-" then .error ()
    else if name?.isSome then .error ()
    else parseSearchGo rest f l u nf set? (some a)

/-- `SearchArgs::try_parse_from` (the command name in front is skipped). -/
def parseSearchArgs : List String → Except Unit SearchArgs
  | [] => .error ()
  | _cmd :: rest => parseSearchGo rest false false false false none none

/-- `LoadEnvArgs` from grub.rs. -/
structure LoadEnvArgs where
  file : String
  skip_sig : Bool
  whitelisted_variables : List String

/-- Model of the clap-derived parser for `LoadEnvArgs`: an optional `--file`
value (default `grubenv`), an optional boolean positional `skip_sig` (default
`false`), and appended positional whitelist variables. -/
def parseLoadEnvGo : List String → String → Option Bool → List String →
    Except Unit LoadEnvArgs
  | [], file, skipSig?, wl => .ok ⟨file, skipSig?.getD false, wl.reverse⟩
  | a :: rest, file, skipSig?, wl =>
    if a = "--file" then
      match rest with
      | v :: rest2 => parseLoadEnvGo rest2 v skipSig? wl
      | [] => .error ()
    else if a.startsWith "--file=" then
      parseLoadEnvGo rest (a.drop 7) skipSig? wl
    else if a.startsWith "-" then .error ()
    else
      match skipSig? with
      | none =>
        if a = "true" then parseLoadEnvGo rest file (some true) wl
        else if a = "false" then parseLoadEnvGo rest file (some false) wl
        else .error ()
      | some _ => parseLoadEnvGo rest file skipSig? (a :: wl)

/-- `LoadEnvArgs::try_parse_from`. -/
def parseLoadEnvArgs : List String → Except Unit LoadEnvArgs
  | [] => .error ()
  | _cmd :: rest => parseLoadEnvGo rest "grubenv" none []

/-- `SaveEnvArgs` from grub.rs (`vars` is the Rust field `variables`, whose
name is a reserved word here). -/
structure SaveEnvArgs where
  file : String
  vars : List String

/-- Model of the clap-derived parser for `SaveEnvArgs`: an optional `--file`
value (default `grubenv`) and appended positional variables. -/
def parseSaveEnvGo : List String → String → List String →
    Except Unit SaveEnvArgs
  | [], file, vars => .ok ⟨file, vars.reverse⟩
  | a :: rest, file, vars =>
    if a = "--file" then
      match rest with
      | v :: rest2 => parseSaveEnvGo rest2 v vars
      | [] => .error ()
    else if a.startsWith "--file=" then
      parseSaveEnvGo rest (a.drop 7) vars
    else if a.startsWith "-" then .error ()
    else parseSaveEnvGo rest file (a :: vars)

/-- `SaveEnvArgs::try_parse_from`. -/
def parseSaveEnvArgs : List String → Except Unit SaveEnvArgs
  | [] => .error ()
  | _cmd :: rest => parseSaveEnvGo rest "grubenv" []

/-- The three `search` criteria (`--file`, `--fs-uuid`, `--label`). -/
inductive SearchCriterion where
  | byFile (name : String)
  | byUuid (name : String)
  | byLabel (name : String)

/-- Modelled from the spec: the block-device and file-system operations used
by `load_env`/`save_env`/`search` (fs.rs and the mount syscalls are not under
`src/`), represented as an abstract world of fallible queries. -/
structure GrubWorld extends TestWorld where
  readFile : String → Except String (List Char)
  findBlockDevice : SearchCriterion → Except String (List String)
  mountinfoLookup : String → Except String (Option String)
  detectFsTypeName : String → Except String String
  mountDevice : String → String → Except String Unit

/-- Rust `PathBuf::join`: an absolute right-hand side replaces the base. -/
def pathJoin (dir part : String) : String :=
  if part.startsWith "/" then part else dir ++ "/" ++ part

/-- `run_load_env` from grub.rs: parse the arguments, read the grubenv file
under `$prefix`, and extend the environment with the whitelisted entries. -/
def run_load_env (w : GrubWorld) (env : EnvMap) (args : List String) : CmdRun :=
  match parseLoadEnvArgs args with
  | .error _ => .ret (.error .invalidArgs) env
  | .ok pa =>
    match env "prefix" with
    | none => .ret (.error .missingEnvironmentVariable) env
    | some prefixDir =>
      match w.readFile (pathJoin prefixDir pa.file) with
      | .error m => .ret (.error (.ioError m)) env
      | .ok contents =>
        .ret (.ok ())
          (env.extendPairs
            (load_env contents (pa.whitelisted_variables.map String.data)))

/-- The `for var in args.variables` loop of `run_save_env`: each variable
currently bound in the environment is pushed (appended) onto the entries read
from the existing file. -/
def saveEnvAppend (env : EnvMap) (vars : List String)
    (existing : List (List Char × List Char)) :
    List (List Char × List Char) :=
  vars.foldl
    (fun acc var =>
      match env var with
      | some value => acc ++ [(var.data, value.data)]
      | none => acc)
    existing

/-- The file contents written by `run_save_env` (grub.rs lines 215-229): the
entries loaded from the existing file, the selected variables appended, and
the result rendered as an environment block. -/
def save_env_block (env : EnvMap) (contents : List Char) (vars : List String) :
    Option (List Char) :=
  grub_environment_block (saveEnvAppend env vars (load_env contents []))

/-- `run_save_env` from grub.rs: parse the arguments, reject an empty
variable list, read the existing grubenv file under `$prefix`, and rewrite it
with the selected variables appended from the current environment. -/
def run_save_env (w : GrubWorld) (env : EnvMap) (args : List String) : CmdRun :=
  match parseSaveEnvArgs args with
  | .error _ => .ret (.error .invalidArgs) env
  | .ok pa =>
    if pa.vars.isEmpty then .ret (.error .invalidArgs) env
    else
      match env "prefix" with
      | none => .ret (.error .missingEnvironmentVariable) env
      | some prefixDir =>
        match w.readFile (pathJoin prefixDir pa.file) with
        | .error m => .ret (.error (.ioError m)) env
        | .ok contents =>
          match save_env_block env contents pa.vars with
          | some _block => .ret (.ok ()) env
          | none => .ret (.error .environmentBlock) env

/-- The mountpoint `search` constructs for an unmounted device:
`/mnt/` + the device path with leading `/` trimmed and `/` replaced by `-`. -/
def mkMountpoint (dev : String) : String :=
  "/mnt/" ++ String.mk
    ((dev.data.dropWhile (fun c => c = '/')).map
      (fun c => if c = '/' then '-' else c))

/-- The shared tail of `run_search`: locate a device, reuse an existing
mountpoint or mount it, and store the mountpoint in the `--set` variable. -/
def searchWith (w : GrubWorld) (env : EnvMap) (var : String)
    (crit : SearchCriterion) : CmdRun :=
  match w.findBlockDevice crit with
  | .error m => .ret (.error (.ioError m)) env
  | .ok found =>
    match found.head? with
    | none => .ret (.error (.ioError "file not found")) env
    | some dev =>
      match w.mountinfoLookup dev with
      | .ok (some existingMountpoint) =>
        .ret (.ok ()) (env.insert var existingMountpoint)
      | _ =>
        match w.detectFsTypeName dev with
        | .error m => .ret (.error (.ioError m)) env
        | .ok _fstype =>
          match w.mountDevice dev (mkMountpoint dev) with
          | .error m => .ret (.error (.nixError m)) env
          | .ok _ => .ret (.ok ()) (env.insert var (mkMountpoint dev))

/-- `run_search` from grub.rs: parse the arguments and dispatch on the flag
combination; no criterion flag at all reaches the `unreachable!()` arm. -/
def run_search (w : GrubWorld) (env : EnvMap) (args : List String) : CmdRun :=
  match parseSearchArgs args with
  | .error _ => .ret (.error .invalidArgs) env
  | .ok sa =>
    match sa.file, sa.fs_uuid, sa.label with
    | true, false, false => searchWith w env sa.set (.byFile sa.name)
    | false, true, false => searchWith w env sa.set (.byUuid sa.name)
    | false, false, true => searchWith w env sa.set (.byLabel sa.name)
    | _, _, _ => .panics

/-- The command dispatch of `run_command` (grub.rs lines 444-456): the
command name is prepended to the argument vector, clap-style. -/
def dispatchCommand (w : GrubWorld) (env : EnvMap) (command : String)
    (args : List String) : CmdRun :=
  if command = "initrd" then run_initrd env args
  else if command = "linux" then run_linux env args
  else if command = "load_env" then run_load_env w env args
  else if command = "save_env" then run_save_env w env args
  else if command = "search" then run_search w env args
  else if command = "set" then run_set env args
  else if command = "test" then
    match run_test w.toTestWorld args with
    | .res r => .ret r env
    | .panics => .panics
  else .ret (.error .notImplemented) env

/-- The exit-code mapping of `run_command` (grub.rs lines 458-465). -/
def exitCodeOf : Except GrubEnvironmentError Unit → Nat
  | .ok _ => 0
  | .error .notImplemented => 0
  | .error .falseResult => 1
  | .error _ => 2

/-- Outcome of `run_command`: an exit code with the updated environment, or
a panic reached inside a handler. -/
inductive CmdOutcome where
  | exited (code : Nat) (env : EnvMap)
  | panics

/-- `run_command` from grub.rs: dispatch, then map the handler's `Result` to
exit code 0 (`Ok` or `NotImplemented`), 1 (`False`), or 2 (any other error). -/
def run_command (w : GrubWorld) (env : EnvMap) (command : String)
    (argsWoCommand : List String) : CmdOutcome :=
  match dispatchCommand w env command (command :: argsWoCommand) with
  | .ret r env2 => .exited (exitCodeOf r) env2
  | .panics => .panics

/-- A concrete world in which every query fails (used to instantiate the
universally quantified theorems). -/
def failWorld : GrubWorld where
  isDirectory _ := .error "io"
  fileExists _ := .error "io"
  isRegularFile _ := .error "io"
  sizeGreaterThanZero _ := .error "io"
  newerThan _ _ := .error "io"
  olderThan _ _ := .error "io"
  readFile _ := .error "io"
  findBlockDevice _ := .error "io"
  mountinfoLookup _ := .error "io"
  detectFsTypeName _ := .error "io"
  mountDevice _ _ := .error "io"

/-! ## GRUB menu entries and `boot_info` (grub.rs lines 472-609)

`GrubEntry` comes from the grub evaluator crate, which is not under `src/`;
its fields are modelled from the spec's `GrubMenuEntry` data model and the
uses in grub.rs. -/

/-- Modelled from the spec: `GrubEntry` — id, title, optional consequence
(script body, opaque here) and optional nested menu entries. -/
inductive GrubEntry where
  | mk (id : Option String) (title : String) (consequence : Option String)
      (menuentries : Option (List GrubEntry))

/-- Field accessor: `id`. -/
def GrubEntry.id : GrubEntry → Option String
  | .mk i _ _ _ => i

/-- Field accessor: `title`. -/
def GrubEntry.title : GrubEntry → String
  | .mk _ t _ _ => t

/-- Field accessor: `consequence`. -/
def GrubEntry.consequence : GrubEntry → Option String
  | .mk _ _ c _ => c

/-- Field accessor: `menuentries`. -/
def GrubEntry.menuentries : GrubEntry → Option (List GrubEntry)
  | .mk _ _ _ m => m

/-- The `all_entries` flattening in `boot_info`: a submenu contributes its
children, any other entry contributes itself. -/
def allEntries (menu : List GrubEntry) : List GrubEntry :=
  menu.flatMap
    (fun e =>
      match e.menuentries with
      | some ms => ms
      | none => [e])

/-- `entry.id.as_deref().unwrap_or(entry.title)` — the key an entry is looked
up by. -/
def entryKey (e : GrubEntry) : String := e.id.getD e.title

/-- The inner `for subentry in subentries` loop of `boot_info` (note the
source checks `entry` — the submenu — rather than the subentry; the model is
faithful to that). -/
def findSubEntry (e : GrubEntry) (eid : String) :
    List GrubEntry → Option GrubEntry
  | [] => none
  | sub :: rest =>
    if e.consequence.isSome ∧ entryKey e = eid then some sub
    else findSubEntry e eid rest

/-- The `'entry` search loop of `boot_info` for an explicit entry id. -/
def findEntryById : List GrubEntry → String → Option GrubEntry
  | [], _ => none
  | e :: rest, eid =>
    if e.consequence.isSome then
      if entryKey e = eid then some e else findEntryById rest eid
    else
      match e.menuentries with
      | some subs =>
        match findSubEntry e eid subs with
        | some sub => some sub
        | none => findEntryById rest eid
      | none => findEntryById rest eid

/-- The default-index computation of `boot_info` (grub.rs lines 593-598):
`get_env("default").map(parse::<usize>).unwrap_or(Ok(0)).unwrap_or(0)`. -/
def defaultEntryIdx (defaultVar : Option String) : Nat :=
  ((defaultVar.map parseUsize).getD (some 0)).getD 0

/-- The entry-selection logic of `boot_info`: an explicit id is looked up by
the `'entry` loop; with no id, the default index selects from the flattened
entry list. -/
def bootInfoSelectedEntry (menu : List GrubEntry) (entryId : Option String)
    (defaultVar : Option String) : Option GrubEntry :=
  let all := allEntries menu
  match entryId with
  | some eid => findEntryById all eid
  | none => all[defaultEntryIdx defaultVar]?

/-! ## The selection coordinator (tbootd/src/main.rs lines 41-218)

The message types (`LinuxBootEntry`, `Device`, `Request`, `Response`,
`InternalMsg`) live in the tboot crate and message.rs, which are not under
`src/`; they are modelled from the spec.  Time is modelled in seconds: the
1 Hz ticker delivers one `Tick` per second, so the model clock advances by
one on each `Tick` and `elapsed = clock - start`. -/

/-- Modelled from the spec: a boot entry surfaced to the coordinator. -/
structure LinuxBootEntry where
  default : Bool
  display : String
  linux : String
  initrd : Option String
  cmdline : Option String
  deriving DecidableEq

/-- Modelled from the spec: the coordinator-visible device record. -/
structure Device where
  name : String
  timeout : Nat
  boot_entries : List LinuxBootEntry
  removable : Bool
  deriving DecidableEq

/-- Modelled from the spec: client request messages. -/
inductive Request where
  | ping
  | startStreaming
  | stopStreaming
  | listBlockDevices
  | userIsPresent
  | boot (entry : LinuxBootEntry)
  | reboot
  | poweroff
  deriving DecidableEq

/-- Modelled from the spec: server response messages.  `TimeLeft` carries
whole seconds. -/
inductive Response where
  | pong
  | serverDone
  | serverError
  | listBlockDevices (devices : List Device)
  | newDevice (device : Device)
  | timeLeft (duration : Option Nat)
  deriving DecidableEq

/-- Modelled from the spec: internal coordinator messages. -/
inductive InternalMsg where
  | device (d : Device)
  | tick
  deriving DecidableEq

/-- One event consumed by the `select_entry` loop. -/
inductive Event where
  | request (r : Request)
  | internal (m : InternalMsg)
  deriving DecidableEq

/-- The mutable state of `select_entry` (tbootd/src/main.rs lines 112-119),
plus the model clock. -/
structure CoordState where
  clock : Nat
  start : Nat
  blockDevices : List Device
  foundFirstDevice : Bool
  defaultEntry : Option LinuxBootEntry
  hasInternalDevice : Bool
  hasUserInteraction : Bool
  timeout : Nat
  deriving DecidableEq

/-- The initial state of `select_entry`: `start = Instant::now()` and
`timeout = Duration::from_secs(10)`. -/
def initState : CoordState where
  clock := 0
  start := 0
  blockDevices := []
  foundFirstDevice := false
  defaultEntry := none
  hasInternalDevice := false
  hasUserInteraction := false
  timeout := 10

/-- The result of `select_entry`: `Ok(entry)` or one of its error variants
(the I/O variants are unreachable in the model). -/
inductive SelectResult where
  | ok (entry : LinuxBootEntry)
  | errReboot
  | errPoweroff
  | errNoDefaultEntry
  deriving DecidableEq

/-- The default-entry candidate taken from a device: its first entry flagged
`default`, or failing that its first entry. -/
def pickDefault (d : Device) : Option LinuxBootEntry :=
  match d.boot_entries.find? (fun e => e.default) with
  | some e => some e
  | none => d.boot_entries.head?

/-- The `InternalMsg::Device` arm of `select_entry` (main.rs lines 161-196):
start the countdown on the first device, extend (never shrink) the timeout,
assign the default entry when none is assigned and no internal device has
been seen, then record internal devices and append to the device list. -/
def deviceStep (s : CoordState) (d : Device) : CoordState :=
  let s1 :=
    if s.foundFirstDevice then s
    else { s with foundFirstDevice := true, start := s.clock }
  let s2 := if d.timeout > s1.timeout then { s1 with timeout := d.timeout } else s1
  let s3 :=
    if s2.defaultEntry.isNone ∧ ¬s2.hasInternalDevice then
      { s2 with defaultEntry := pickDefault d }
    else s2
  let s4 := if d.removable then s3 else { s3 with hasInternalDevice := true }
  { s4 with blockDevices := s4.blockDevices ++ [d] }

/-- Result of one iteration of the `select_entry` loop: keep looping with
broadcasts, or return with broadcasts. -/
inductive CoordStep where
  | running (s : CoordState) (out : List Response)
  | done (r : SelectResult) (out : List Response)
  deriving DecidableEq

/-- One iteration of the `select_entry` loop on one event. -/
def stepCoord (s : CoordState) (e : Event) : CoordStep :=
  match e with
  | .request .ping => .running s []
  | .request .startStreaming => .running s []
  | .request .stopStreaming => .running s []
  | .request .listBlockDevices => .running s [.listBlockDevices s.blockDevices]
  | .request (.boot entry) => .done (.ok entry) []
  | .request .userIsPresent =>
    .running { s with hasUserInteraction := true } [.timeLeft none]
  | .request .reboot => .done .errReboot []
  | .request .poweroff => .done .errPoweroff []
  | .internal (.device d) => .running (deviceStep s d) [.newDevice d]
  | .internal .tick =>
    let clock := s.clock + 1
    let elapsed := clock - s.start
    let out :=
      if ¬s.hasUserInteraction ∧ s.timeout > elapsed then
        [Response.timeLeft (some (s.timeout - elapsed))]
      else []
    if ¬s.hasUserInteraction ∧ elapsed ≥ s.timeout then
      match s.defaultEntry with
      | some e => .done (.ok e) out
      | none => .done .errNoDefaultEntry out
    else .running { s with clock := clock } out

/-- Result of running the loop on a list of events: still waiting with the
accumulated broadcast trace, or returned with the trace. -/
inductive RunResult where
  | running (s : CoordState) (trace : List Response)
  | finished (r : SelectResult) (trace : List Response)
  deriving DecidableEq

/-- `true` iff the loop returned. -/
def RunResult.isFinished : RunResult → Bool
  | .running _ _ => false
  | .finished _ _ => true

/-- The coordinator state, when the loop is still waiting. -/
def RunResult.currentState : RunResult → Option CoordState
  | .running s _ => some s
  | .finished _ _ => none

/-- Run the `select_entry` loop over a list of events, accumulating the
broadcast trace in order; events after a return are never consumed. -/
def runCoord : CoordState → List Event → RunResult
  | s, [] => .running s []
  | s, e :: es =>
    match stepCoord s e with
    | .running s2 out =>
      match runCoord s2 es with
      | .running s3 tr => .running s3 (out ++ tr)
      | .finished r tr => .finished r (out ++ tr)
    | .done r out => .finished r out

/-- Device arrivals as coordinator events. -/
def deviceEvents (ds : List Device) : List Event :=
  ds.map (fun d => Event.internal (InternalMsg.device d))

/-! ## The client connection handler (tbootd/src/main.rs lines 41-80) -/

/-- The per-connection state of `handle_client`: the streaming flag and the
`unsent_events` queue (a `VecDeque` with no capacity bound). -/
structure ClientState where
  streaming : Bool
  unsentEvents : List Response
  deriving DecidableEq

/-- The initial per-connection state: streaming off, queue empty. -/
def initClient : ClientState where
  streaming := false
  unsentEvents := []

/-- One input to `handle_client`'s select loop: a request read from the
client socket, or a broadcast received from the coordinator. -/
inductive ClientEvent where
  | fromClient (req : Request)
  | broadcast (msg : Response)
  deriving DecidableEq

/-- The `matches!(msg, Response::NewDevice(_) | Response::TimeLeft(_))`
predicate of `handle_client`. -/
def isQueuedKind : Response → Bool
  | .newDevice _ => true
  | .timeLeft _ => true
  | _ => false

/-- Effect of one `handle_client` iteration: the successor state, the
responses written to this client's socket (in order), and the requests
forwarded to the coordinator. -/
structure ClientStep where
  state : ClientState
  sent : List Response
  forwarded : List Request
  deriving DecidableEq

/-- One iteration of `handle_client`'s select loop. -/
def clientStep (st : ClientState) (ev : ClientEvent) : ClientStep :=
  match ev with
  | .fromClient .ping => ⟨st, [.pong], []⟩
  | .fromClient .startStreaming =>
    ⟨{ streaming := true, unsentEvents := [] }, st.unsentEvents, []⟩
  | .fromClient .stopStreaming => ⟨{ st with streaming := false }, [], []⟩
  | .fromClient req => ⟨st, [], [req]⟩
  | .broadcast msg =>
    if ¬st.streaming ∧ isQueuedKind msg then
      ⟨{ st with unsentEvents := st.unsentEvents ++ [msg] }, [], []⟩
    else ⟨st, [msg], []⟩

/-- Run `handle_client` over a list of events, returning the final state. -/
def clientRun : ClientState → List ClientEvent → ClientState
  | st, [] => st
  | st, e :: es => clientRun (clientStep st e).state es

/-! ## Concrete fixtures used by witnesses and counterexamples -/

/-- A default-flagged entry on a removable device. -/
def entryR : LinuxBootEntry where
  default := true
  display := "R"
  linux := "/boot/vmlinuz-r"
  initrd := none
  cmdline := none

/-- A default-flagged entry on a non-removable device. -/
def entryN : LinuxBootEntry where
  default := true
  display := "N"
  linux := "/boot/vmlinuz-n"
  initrd := none
  cmdline := none

/-- A removable device carrying `entryR`. -/
def devR : Device where
  name := "sda1"
  timeout := 0
  boot_entries := [entryR]
  removable := true

/-- A non-removable device carrying `entryN`. -/
def devN : Device where
  name := "nvme0n1p1"
  timeout := 0
  boot_entries := [entryN]
  removable := false

/-- Entry A of the spec's timeout scenario (`default = true`). -/
def entryA3 : LinuxBootEntry where
  default := true
  display := "A"
  linux := "/boot/vmlinuz-a"
  initrd := none
  cmdline := none

/-- Entry B of the spec's timeout scenario. -/
def entryB3 : LinuxBootEntry where
  default := false
  display := "B"
  linux := "/boot/vmlinuz-b"
  initrd := none
  cmdline := none

/-- The spec's timeout scenario device: `timeout = 3`, entries A and B. -/
def devT3 : Device where
  name := "vda1"
  timeout := 3
  boot_entries := [entryA3, entryB3]
  removable := false

/-- A boot entry with id `a`. -/
def entryIdA : GrubEntry := .mk (some "a") "Entry A" (some "linux /a") none

/-- A boot entry with id `b`. -/
def entryIdB : GrubEntry := .mk (some "b") "Entry B" (some "linux /b") none

/-- An environment binding only `foo = new`. -/
def envFooNew : EnvMap := fun s => if s = "foo" then some "new" else none

/-- A grubenv file whose single entry binds `foo = old`. -/
def c6File : List Char :=
  (grub_environment_block [("foo".data, "old".data)]).getD []

/-- The coordinator state after `devT3` arrives and nine ticks pass. -/
def nineTickState : CoordState where
  clock := 9
  start := 0
  blockDevices := [devT3]
  foundFirstDevice := true
  defaultEntry := some entryA3
  hasInternalDevice := true
  hasUserInteraction := false
  timeout := 10

/-- The trace broadcast while reaching `nineTickState`. -/
def nineTickTrace : List Response :=
  Response.newDevice devT3 ::
    [Response.timeLeft (some 9), .timeLeft (some 8), .timeLeft (some 7),
     .timeLeft (some 6), .timeLeft (some 5), .timeLeft (some 4),
     .timeLeft (some 3), .timeLeft (some 2), .timeLeft (some 1)]

/-- The coordinator state right after a `UserIsPresent` request arrives in
the initial state. -/
def userEngagedState : CoordState where
  clock := 0
  start := 0
  blockDevices := []
  foundFirstDevice := false
  defaultEntry := none
  hasInternalDevice := false
  hasUserInteraction := true
  timeout := 10

/-! ### Line-splitting lemmas -/

theorem stripCR_of_not_mem {l : List Char} (h : '\r' ∉ l) : stripCR l = l := by
  unfold stripCR
  split
  · next hl => exact absurd (List.mem_of_mem_getLast? hl) h
  · rfl

theorem linesGo_append_newline {xs : List Char} (h : '\n' ∉ xs) :
    ∀ (acc ys : List Char), linesGo (xs ++ '\n' :: ys) acc =
      stripCR (acc.reverse ++ xs) :: linesGo ys [] := by
  induction xs with
  | nil => intro acc ys; simp [linesGo]
  | cons c xs ih =>
    intro acc ys
    have hc : ¬(c = '\n') := fun hceq => h (hceq ▸ List.mem_cons_self c xs)
    have hxs : '\n' ∉ xs := fun hm => h (List.mem_cons_of_mem _ hm)
    simp only [List.cons_append, linesGo, if_neg hc, List.append_eq]
    rw [ih hxs (c :: acc) ys]
    simp [List.append_assoc]

theorem linesGo_no_newline {xs : List Char} (h : '\n' ∉ xs) :
    ∀ acc : List Char, linesGo xs acc =
      if acc.reverse ++ xs = [] then [] else [acc.reverse ++ xs] := by
  induction xs with
  | nil =>
    intro acc
    by_cases hacc : acc = []
    · subst hacc; simp [linesGo]
    · simp [linesGo, List.isEmpty_iff, hacc]
  | cons c xs ih =>
    intro acc
    have hc : ¬(c = '\n') := fun hceq => h (hceq ▸ List.mem_cons_self c xs)
    have hxs : '\n' ∉ xs := fun hm => h (List.mem_cons_of_mem _ hm)
    simp only [linesGo, if_neg hc]
    rw [ih hxs (c :: acc)]
    simp [List.append_assoc]

theorem rustLines_entries_pad (env : List (List Char × List Char))
    (hwf : ∀ p ∈ env, wfEntry p) (k : Nat) :
    rustLines ((env.map entryLine).flatten ++ List.replicate k '#') =
      env.map (fun nv => nv.1 ++ '=' :: nv.2) ++ padLines k := by
  induction env with
  | nil =>
    have hrep : '\n' ∉ List.replicate k '#' := by
      intro hm
      exact absurd (List.eq_of_mem_replicate hm) (by decide)
    unfold rustLines
    rw [show ((List.map entryLine []).flatten ++ List.replicate k '#') =
      List.replicate k '#' by simp]
    rw [linesGo_no_newline hrep []]
    unfold padLines
    cases k with
    | zero => simp
    | succ j => simp [List.replicate_succ]
  | cons nv env ih =>
    obtain ⟨hn1, hn2, hn3, hn4, hn5, hn6⟩ := hwf nv (List.mem_cons_self nv env)
    have hline : '\n' ∉ nv.1 ++ '=' :: nv.2 := by
      intro hm
      rcases List.mem_append.mp hm with h1 | h2
      · exact hn1 h1
      · rcases List.mem_cons.mp h2 with he | h2
        · exact absurd he (by decide)
        · exact hn5 h2
    have hcr : '\r' ∉ nv.1 ++ '=' :: nv.2 := by
      intro hm
      rcases List.mem_append.mp hm with h1 | h2
      · exact hn4 h1
      · rcases List.mem_cons.mp h2 with he | h2
        · exact absurd he (by decide)
        · exact hn6 h2
    have hassoc : (List.map entryLine (nv :: env)).flatten ++ List.replicate k '#' =
        (nv.1 ++ '=' :: nv.2) ++ '\n' ::
          ((List.map entryLine env).flatten ++ List.replicate k '#') := by
      simp [entryLine, List.append_assoc]
    unfold rustLines
    rw [hassoc, linesGo_append_newline hline []]
    rw [stripCR_of_not_mem (by simpa using hcr)]
    have ihh := ih (fun p hp => hwf p (List.mem_cons_of_mem nv hp))
    unfold rustLines at ihh
    rw [ihh]
    simp

theorem splitOnce_entry (n v : List Char) (h : '=' ∉ n) :
    splitOnce '=' (n ++ '=' :: v) = some (n, v) := by
  induction n with
  | nil => simp [splitOnce]
  | cons c n ih =>
    have hc : ¬(c = '=') := fun hceq => h (hceq ▸ List.mem_cons_self c n)
    have hn : '=' ∉ n := fun hm => h (List.mem_cons_of_mem _ hm)
    simp [splitOnce, hc, ih hn]

theorem entry_line_head_ne (n v : List Char)
    (h : n.head? ≠ some '#') : (n ++ '=' :: v).head? ≠ some '#' := by
  cases n with
  | nil => simp
  | cons c n => simpa using h

theorem rustLines_cons_line {xs : List Char} (h : '\n' ∉ xs) (ys : List Char) :
    rustLines (xs ++ '\n' :: ys) = stripCR xs :: rustLines ys := by
  unfold rustLines
  rw [linesGo_append_newline h [] ys]
  simp

theorem rustLines_block (env : List (List Char × List Char))
    (hwf : ∀ p ∈ env, wfEntry p) (k : Nat) :
    rustLines (blockBody env ++ List.replicate k '#') =
      headerLine1 :: headerLine2 ::
        (env.map (fun nv => nv.1 ++ '=' :: nv.2) ++ padLines k) := by
  have hassoc : blockBody env ++ List.replicate k '#' =
      headerLine1 ++ '\n' :: (headerLine2 ++ '\n' ::
        ((env.map entryLine).flatten ++ List.replicate k '#')) := by
    simp [blockBody, List.append_assoc]
  rw [hassoc, rustLines_cons_line (by decide), rustLines_cons_line (by decide),
    rustLines_entries_pad env hwf k]
  have h1 : stripCR headerLine1 = headerLine1 := by decide
  have h2 : stripCR headerLine2 = headerLine2 := by decide
  rw [h1, h2]

theorem filter_block_lines (env : List (List Char × List Char))
    (hwf : ∀ p ∈ env, wfEntry p) (k : Nat) :
    (headerLine1 :: headerLine2 ::
        (env.map (fun nv => nv.1 ++ '=' :: nv.2) ++ padLines k)).filter
      (fun line => line.head? ≠ some '#') =
      env.map (fun nv => nv.1 ++ '=' :: nv.2) := by
  have hh1 : (decide (headerLine1.head? ≠ some '#')) = false := by decide
  have hh2 : (decide (headerLine2.head? ≠ some '#')) = false := by decide
  simp only [List.filter_cons, hh1, hh2, Bool.false_eq_true, if_neg,
    List.filter_append]
  have hents : (env.map (fun nv => nv.1 ++ '=' :: nv.2)).filter
      (fun line => line.head? ≠ some '#') =
      env.map (fun nv => nv.1 ++ '=' :: nv.2) := by
    rw [List.filter_eq_self]
    intro line hline
    obtain ⟨nv, hnv, rfl⟩ := List.mem_map.mp hline
    exact decide_eq_true (entry_line_head_ne nv.1 nv.2 (hwf nv hnv).2.2.1)
  have hpad : (padLines k).filter (fun line => line.head? ≠ some '#') = [] := by
    unfold padLines
    cases k with
    | zero => simp
    | succ j => simp [List.replicate_succ]
  simp only [ne_eq, decide_not] at hents hpad
  simp [hents, hpad]

theorem foldl_parse_entries (env : List (List Char × List Char))
    (hwf : ∀ p ∈ env, '=' ∉ p.1) :
    ∀ acc, (env.map (fun nv => nv.1 ++ '=' :: nv.2)).foldl (loadEnvStep []) acc =
      acc ++ env := by
  induction env with
  | nil => intro acc; simp
  | cons nv env ih =>
    intro acc
    have hk : '=' ∉ nv.1 := hwf nv (List.mem_cons_self nv env)
    simp only [List.map_cons, List.foldl_cons]
    rw [show loadEnvStep [] acc (nv.1 ++ '=' :: nv.2) = acc ++ [nv] by
      simp [loadEnvStep, splitOnce_entry nv.1 nv.2 hk]]
    rw [ih (fun p hp => hwf p (List.mem_cons_of_mem nv hp)) (acc ++ [nv])]
    simp

/-- Round-trip helper: reading back a successfully written environment block
recovers exactly the entries that were written, provided each entry is
well-formed. -/
theorem load_env_grub_environment_block (env : List (List Char × List Char))
    (hwf : ∀ p ∈ env, wfEntry p) {b : List Char}
    (hb : grub_environment_block env = some b) :
    load_env b [] = env := by
  unfold grub_environment_block at hb
  by_cases hlen : (blockBody env).length ≤ GRUB_ENVIRONMENT_BLOCK_LENGTH
  · simp only [hlen, if_pos] at hb
    obtain rfl :
        blockBody env ++ List.replicate
          (GRUB_ENVIRONMENT_BLOCK_LENGTH - (blockBody env).length) '#' = b :=
      Option.some_injective _ hb
    unfold load_env
    rw [rustLines_block env hwf, filter_block_lines env hwf]
    rw [foldl_parse_entries env (fun p hp => (hwf p hp).2.1) []]
    simp
  · simp [hlen] at hb

theorem grub_environment_block_length (env : List (List Char × List Char))
    {b : List Char} (hb : grub_environment_block env = some b) :
    b.length = 1024 := by
  unfold grub_environment_block at hb
  by_cases hlen : (blockBody env).length ≤ GRUB_ENVIRONMENT_BLOCK_LENGTH
  · simp only [hlen, if_pos] at hb
    obtain rfl :
        blockBody env ++ List.replicate
          (GRUB_ENVIRONMENT_BLOCK_LENGTH - (blockBody env).length) '#' = b :=
      Option.some_injective _ hb
    simp only [GRUB_ENVIRONMENT_BLOCK_LENGTH] at hlen
    simp [GRUB_ENVIRONMENT_BLOCK_LENGTH]
    omega
  · simp [hlen] at hb

theorem grub_environment_block_eq_some (env : List (List Char × List Char))
    (hlen : (blockBody env).length ≤ 1024) :
    grub_environment_block env =
      some (blockBody env ++
        List.replicate (1024 - (blockBody env).length) '#') := by
  simp only [grub_environment_block, GRUB_ENVIRONMENT_BLOCK_LENGTH]
  rw [if_pos hlen]

/-! ## Claim C4: environment-block round trip -/

/-- **C4** (amended): for entry lists whose names contain no `=`, `\n` or
`\r` and do not start with `#`, and whose values contain no `\n` or `\r`:
when the header plus entries fit in 1024 bytes, `grub_environment_block`
succeeds, produces exactly 1024 bytes, and `load_env` with an empty whitelist
reads back exactly the written entries; when the header plus entries exceed
1024 bytes, `grub_environment_block` fails. -/
theorem c4_env_block_roundtrip (env : List (List Char × List Char))
    (hwf : ∀ p ∈ env, wfEntry p) :
    ((blockBody env).length ≤ 1024 →
      ∃ b, grub_environment_block env = some b ∧ b.length = 1024 ∧
        load_env b [] = env) ∧
    (1024 < (blockBody env).length → grub_environment_block env = none) := by
  constructor
  · intro hlen
    have hsome := grub_environment_block_eq_some env hlen
    exact ⟨_, hsome, grub_environment_block_length env hsome,
      load_env_grub_environment_block env hwf hsome⟩
  · intro hlen
    simp only [grub_environment_block, GRUB_ENVIRONMENT_BLOCK_LENGTH]
    rw [if_neg (by omega)]

set_option maxRecDepth 10000 in
/-- **C4** witness: the spec's concrete scenario
`[("foo","bar"), ("bar","baz")]` round-trips through a 1024-byte block. -/
theorem c4_env_block_roundtrip_witness :
    ∃ b, grub_environment_block
        [("foo".data, "bar".data), ("bar".data, "baz".data)] = some b ∧
      b.length = 1024 ∧
      load_env b [] = [("foo".data, "bar".data), ("bar".data, "baz".data)] :=
  (c4_env_block_roundtrip _ (by decide)).1 (by decide)

set_option maxRecDepth 10000 in
/-- **C4** counterexample: for the entry list `[("#a", "b")]` the block is
written successfully, but reading it back drops the entry (its line starts
with `#`), so the round trip of the claim fails without the added
well-formedness conditions. -/
theorem c4_counterexample :
    (grub_environment_block [("#a".data, "b".data)]).isSome = true ∧
    load_env ((grub_environment_block [("#a".data, "b".data)]).getD []) [] ≠
      [("#a".data, "b".data)] := by
  constructor
  · decide
  · decide

/-! ## Claim C6: `save_env` rewrites -/

theorem saveEnvAppend_eq_append (env : EnvMap) (vars : List String) :
    ∀ existing, saveEnvAppend env vars existing =
      existing ++ saveEnvAppend env vars [] := by
  induction vars with
  | nil => intro ex; simp [saveEnvAppend]
  | cons v vs ih =>
    intro ex
    simp only [saveEnvAppend, List.foldl_cons] at ih ⊢
    cases h : env v with
    | none => simp only [h]; exact ih ex
    | some value =>
      simp only [h]
      rw [ih (ex ++ [(v.data, value.data)]), ih ([] ++ [(v.data, value.data)])]
      simp

/-- **C6** (amended): `save_env` does not overwrite a variable's previous
binding in the file — it *appends* each specified variable currently bound in
the evaluator's environment after the entries parsed from the existing file,
so a variable already present in the file appears twice (reads apply later
bindings last); pre-existing entries are preserved.  Stated for well-formed
entries that fit in the 1024-byte block. -/
theorem c6_save_env_appends (env : EnvMap) (contents : List Char)
    (vars : List String)
    (hwf : ∀ p ∈ load_env contents [] ++ saveEnvAppend env vars [], wfEntry p)
    (hfit : (blockBody (load_env contents [] ++
      saveEnvAppend env vars [])).length ≤ 1024) :
    ∃ b, save_env_block env contents vars = some b ∧
      load_env b [] = load_env contents [] ++ saveEnvAppend env vars [] := by
  have hsplit : saveEnvAppend env vars (load_env contents []) =
      load_env contents [] ++ saveEnvAppend env vars [] :=
    saveEnvAppend_eq_append env vars _
  have hsome := grub_environment_block_eq_some _ hfit
  refine ⟨_, ?_, load_env_grub_environment_block _ hwf hsome⟩
  unfold save_env_block
  rw [hsplit]
  exact hsome

set_option maxRecDepth 10000 in
/-- **C6** witness: saving `foo` (bound to `new`) over a file already binding
`foo = old` yields a block whose entries are the old binding followed by the
new one. -/
theorem c6_save_env_appends_witness :
    ∃ b, save_env_block envFooNew c6File ["foo"] = some b ∧
      load_env b [] = load_env c6File [] ++
        saveEnvAppend envFooNew ["foo"] [] :=
  c6_save_env_appends envFooNew c6File ["foo"] (by decide) (by decide)

set_option maxRecDepth 10000 in
/-- **C6** counterexample: after `save_env foo` over a file binding
`foo = old` with the environment binding `foo = new`, the rewritten file
contains `foo` twice — the previous binding is not overwritten, refuting
"bound (exactly once) … overwriting any previous binding". -/
theorem c6_counterexample :
    load_env ((save_env_block envFooNew c6File ["foo"]).getD []) [] =
      [("foo".data, "old".data), ("foo".data, "new".data)] := by
  decide

/-! ## Claims C5 and C7: `test` shapes and `run_command` exit codes -/

theorem exitCodeOf_cases (r : Except GrubEnvironmentError Unit) :
    exitCodeOf r = 0 ∨ exitCodeOf r = 1 ∨ exitCodeOf r = 2 := by
  cases r with
  | ok u => simp [exitCodeOf]
  | error e => cases e <;> simp [exitCodeOf]

theorem run_command_test (w : GrubWorld) (env : EnvMap) (args : List String) :
    run_command w env "test" args =
      match run_test w.toTestWorld ("test" :: args) with
      | .res r => .exited (exitCodeOf r) env
      | .panics => .panics := by
  cases h : run_test w.toTestWorld ("test" :: args) with
  | res r => simp [run_command, dispatchCommand, h]
  | panics => simp [run_command, dispatchCommand, h]

/-- **C5** (amended): a `test` invocation whose argument count (excluding the
command name) is not 1, 2 or 3 exits with code 2, and so does every argument
shape outside the source's predicate table; the *recognized but
unimplemented* shapes (`! EXPR`, `E1 -a E2`, `E1 -o E2`, `( E )`) do not exit
2 — they hit `todo!()` and panic. -/
theorem c5_test_malformed (w : GrubWorld) (env : EnvMap) (args : List String) :
    (args.length ∉ ([1, 2, 3] : List Nat) →
      run_command w env "test" args = .exited 2 env) ∧
    (∀ a b, args = [a, b] →
      a ∉ (["-d", "-e", "-f", "-s", "-n", "-z", "!"] : List String) →
      run_command w env "test" args = .exited 2 env) ∧
    (∀ x op y, args = [x, op, y] →
      op ∉ (["=", "==", "!=", "<", "<=", ">", ">=", "-eq", "-ge", "-gt",
        "-le", "-lt", "-ne", "-pgt", "-plt", "-nt", "-ot", "-a", "-o"] :
          List String) →
      ¬(x = "(" ∧ y = ")") →
      run_command w env "test" args = .exited 2 env) := by
  refine ⟨?_, ?_, ?_⟩
  · intro hlen
    match args with
    | [] => rfl
    | [_] => simp at hlen
    | [_, _] => simp at hlen
    | [_, _, _] => simp at hlen
    | _ :: _ :: _ :: _ :: _ => rfl
  · rintro a b rfl hmem
    simp only [List.mem_cons, List.not_mem_nil, or_false, not_or] at hmem
    obtain ⟨h1, h2, h3, h4, h5, h6, h7⟩ := hmem
    rw [run_command_test]
    have : run_test w.toTestWorld ["test", a, b] =
        .res (.error .invalidArgs) := by
      simp only [run_test]
      rw [if_neg h1, if_neg h2, if_neg h3, if_neg h4, if_neg h5, if_neg h6,
        if_neg h7]
    rw [this]
    rfl
  · rintro x op y rfl hmem hparen
    simp only [List.mem_cons, List.not_mem_nil, or_false, not_or] at hmem
    obtain ⟨g1, g2, g3, g4, g5, g6, g7, g8, g9, g10, g11, g12, g13, g14, g15,
      g16, g17, g18, g19⟩ := hmem
    rw [run_command_test]
    have : run_test w.toTestWorld ["test", x, op, y] =
        .res (.error .invalidArgs) := by
      simp only [run_test]
      rw [if_neg g1, if_neg g2, if_neg g3, if_neg g4, if_neg g5, if_neg g6,
        if_neg g7, if_neg g8, if_neg g9, if_neg g10, if_neg g11, if_neg g12,
        if_neg g13, if_neg g14, if_neg g15, if_neg g16, if_neg g17,
        if_neg g18, if_neg g19, if_neg hparen]
    rw [this]
    rfl

/-- **C5** witness: a four-argument `test` invocation exits with code 2. -/
theorem c5_test_malformed_witness :
    run_command failWorld emptyEnv "test" ["w", "x", "y", "z"] =
      .exited 2 emptyEnv :=
  (c5_test_malformed failWorld emptyEnv ["w", "x", "y", "z"]).1 (by decide)

/-- **C5** counterexample: `test ! foo` — a shape outside the spec's
recognized predicate table — does not exit with code 2: it panics
(`todo!()` in the source). -/
theorem c5_counterexample :
    run_command failWorld emptyEnv "test" ["!", "foo"] = .panics := rfl

/-- **C7** (amended): whenever `run_command` returns, its exit code is 0, 1
or 2 (so `?` can hold its decimal form); `run_command` is however not total —
the unimplemented `test` predicates and a `search` without a criterion flag
panic instead of returning. -/
theorem c7_run_command_exit_codes (w : GrubWorld) (env : EnvMap)
    (cmd : String) (args : List String) :
    ∀ c env2, run_command w env cmd args = .exited c env2 →
      c = 0 ∨ c = 1 ∨ c = 2 := by
  intro c env2 h
  unfold run_command at h
  cases hd : dispatchCommand w env cmd (cmd :: args) with
  | ret r env3 =>
    rw [hd] at h
    cases h
    exact exitCodeOf_cases r
  | panics =>
    rw [hd] at h
    exact (CmdOutcome.noConfusion h)

/-- **C7** witness: `test -z ""` exits with code 0 (an exit code in
`{0, 1, 2}`). -/
theorem c7_run_command_exit_codes_witness :
    (0 : Nat) = 0 ∨ (0 : Nat) = 1 ∨ (0 : Nat) = 2 :=
  c7_run_command_exit_codes failWorld emptyEnv "test" ["-z", ""] 0 emptyEnv rfl

/-- **C7** counterexample: `run_command` is not total — on `test ! x` it
panics, so its result is not an exit code at all. -/
theorem c7_counterexample :
    run_command failWorld emptyEnv "test" ["!", "x"] = .panics := rfl

/-! ## Claim C3: `boot_info` default selection -/

/-- **C3** (amended): with no entry id, `boot_info` selects by parsing the
GRUB `default` variable as a numeric index into the flattened entry list; an
unset *or unparseable* value selects index 0.  There is no fall-back match of
the value against entry ids, and an out-of-range index selects nothing
(`BootEntryNotFound` in the caller) rather than falling back to index 0. -/
theorem c3_default_selection (menu : List GrubEntry) (dv : String) :
    (bootInfoSelectedEntry menu none none = (allEntries menu)[0]?) ∧
    (parseUsize dv = none →
      bootInfoSelectedEntry menu none (some dv) = (allEntries menu)[0]?) ∧
    (∀ n, parseUsize dv = some n →
      bootInfoSelectedEntry menu none (some dv) = (allEntries menu)[n]?) := by
  refine ⟨rfl, ?_, ?_⟩
  · intro h
    simp [bootInfoSelectedEntry, defaultEntryIdx, h]
  · intro n h
    simp [bootInfoSelectedEntry, defaultEntryIdx, h]

/-- **C3** witness: `default = "1"` parses as index 1 and selects the second
flattened entry. -/
theorem c3_default_selection_witness :
    bootInfoSelectedEntry [entryIdA, entryIdB] none (some "1") =
      (allEntries [entryIdA, entryIdB])[1]? :=
  (c3_default_selection [entryIdA, entryIdB] "1").2.2 1 (by decide)

/-- **C3** counterexample: with entries of ids `a` and `b` and
`default = "b"`, the claim's id-match fallback would select the entry with
id `b`; the code parses `"b"` as an index, fails, and falls back to index 0,
selecting the entry with id `a`. -/
theorem c3_counterexample :
    bootInfoSelectedEntry [entryIdA, entryIdB] none (some "b") =
      some entryIdA ∧
    (bootInfoSelectedEntry [entryIdA, entryIdB] none (some "b")).map entryKey ≠
      some "b" := by
  constructor
  · rfl
  · decide

/-! ## Coordinator lemmas -/

theorem runCoord_devices (ds : List Device) :
    ∀ s : CoordState, runCoord s (deviceEvents ds) =
      .running (ds.foldl deviceStep s) (ds.map Response.newDevice) := by
  induction ds with
  | nil => intro s; simp [deviceEvents, runCoord]
  | cons d ds ih =>
    intro s
    simp only [deviceEvents, List.map_cons, runCoord, stepCoord, List.foldl_cons]
    rw [show (List.map (fun d => Event.internal (InternalMsg.device d)) ds) =
      deviceEvents ds from rfl, ih (deviceStep s d)]
    rfl

theorem deviceStep_defaultEntry_some (s : CoordState) (d : Device)
    (h : s.defaultEntry.isSome) :
    (deviceStep s d).defaultEntry = s.defaultEntry := by
  simp only [deviceStep]
  split_ifs <;> simp_all

theorem foldl_deviceStep_defaultEntry (ds : List Device) :
    ∀ s : CoordState, s.defaultEntry.isSome →
      (ds.foldl deviceStep s).defaultEntry = s.defaultEntry := by
  induction ds with
  | nil => intro s _; rfl
  | cons d ds ih =>
    intro s h
    simp only [List.foldl_cons]
    rw [ih (deviceStep s d)
      (by rw [deviceStep_defaultEntry_some s d h]; exact h)]
    exact deviceStep_defaultEntry_some s d h

theorem deviceStep_init_assigns (d : Device) :
    (deviceStep initState d).defaultEntry = pickDefault d := by
  simp only [deviceStep, initState]
  split_ifs <;> simp_all

theorem pickDefault_isSome (d : Device) (h : d.boot_entries ≠ []) :
    (pickDefault d).isSome := by
  unfold pickDefault
  cases hf : d.boot_entries.find? (fun e => e.default) with
  | some e => rfl
  | none =>
    cases hb : d.boot_entries with
    | nil => exact absurd hb h
    | cons a l => simp [hb]

/-! ## Claim C1: default-entry policy -/

/-- **C1** (amended): the default entry is assigned from the *first* device
observed — regardless of removability — as its first entry flagged
`default`, or failing that its first entry; subsequent devices never
displace it.  (The claim's "first non-removable device" is wrong: a
removable first device also claims the default.) -/
theorem c1_first_device_default (d : Device) (ds : List Device)
    (hne : d.boot_entries ≠ []) :
    ((d :: ds).foldl deviceStep initState).defaultEntry = pickDefault d ∧
    (pickDefault d).isSome ∧
    runCoord initState (deviceEvents (d :: ds)) =
      .running ((d :: ds).foldl deviceStep initState)
        ((d :: ds).map Response.newDevice) := by
  refine ⟨?_, pickDefault_isSome d hne, runCoord_devices (d :: ds) initState⟩
  simp only [List.foldl_cons]
  rw [foldl_deviceStep_defaultEntry ds (deviceStep initState d)
    (by rw [deviceStep_init_assigns]; exact pickDefault_isSome d hne)]
  exact deviceStep_init_assigns d

/-- **C1** witness: for a removable first device followed by a non-removable
one, the default is the removable device's entry. -/
theorem c1_first_device_default_witness :
    ((devR :: [devN]).foldl deviceStep initState).defaultEntry =
      pickDefault devR ∧
    (pickDefault devR).isSome ∧
    runCoord initState (deviceEvents (devR :: [devN])) =
      .running ((devR :: [devN]).foldl deviceStep initState)
        ((devR :: [devN]).map Response.newDevice) :=
  c1_first_device_default devR [devN] (by decide)

/-- **C1** counterexample: with a removable device (entry R) arriving before
a non-removable one (entry N), the claim says the default is N's entry; the
coordinator keeps R's entry. -/
theorem c1_counterexample :
    (runCoord initState (deviceEvents [devR, devN])).currentState.map
      CoordState.defaultEntry = some (some entryR) ∧ entryR ≠ entryN := by
  constructor
  · rfl
  · decide

/-! ## Claim C2: timeout policy -/

theorem deviceStep_timeout (s : CoordState) (d : Device) :
    (deviceStep s d).timeout = max s.timeout d.timeout := by
  simp only [deviceStep]
  split_ifs <;> simp_all <;> omega

theorem foldl_deviceStep_timeout (ds : List Device) :
    ∀ s : CoordState, (ds.foldl deviceStep s).timeout =
      ds.foldl (fun t d => max t d.timeout) s.timeout := by
  induction ds with
  | nil => intro s; rfl
  | cons d ds ih =>
    intro s
    simp only [List.foldl_cons]
    rw [ih, deviceStep_timeout]

theorem foldl_max_shift (ds : List Device) :
    ∀ a : Nat, ds.foldl (fun t d => max t d.timeout) a =
      max a (ds.foldl (fun t d => max t d.timeout) 0) := by
  induction ds with
  | nil => intro a; simp
  | cons d ds ih =>
    intro a
    simp only [List.foldl_cons]
    rw [ih (max a d.timeout), ih (max 0 d.timeout)]
    simp [Nat.max_assoc]

/-- **C2** (amended): the coordinator's effective timeout is the maximum of
its initial 10 seconds and the timeouts of all devices seen so far (a later
device can extend but never shrink the window, and the window never drops
below 10 seconds); consequently, in the spec's scenario of a single device
reporting `timeout = 3` with no client interaction, the coordinator returns
the default entry A only on the tenth tick, after broadcasting nine strictly
decreasing `TimeLeft` values 9..1. -/
theorem c2_timeout_policy :
    (∀ ds : List Device, ((ds.foldl deviceStep initState).timeout) =
      max 10 (ds.foldl (fun t d => max t d.timeout) 0)) ∧
    (∀ ds : List Device, runCoord initState (deviceEvents ds) =
      .running (ds.foldl deviceStep initState) (ds.map Response.newDevice)) ∧
    runCoord initState
      (Event.internal (InternalMsg.device devT3) ::
        List.replicate 10 (Event.internal InternalMsg.tick)) =
      .finished (.ok entryA3)
        [Response.newDevice devT3,
         .timeLeft (some 9), .timeLeft (some 8), .timeLeft (some 7),
         .timeLeft (some 6), .timeLeft (some 5), .timeLeft (some 4),
         .timeLeft (some 3), .timeLeft (some 2), .timeLeft (some 1)] := by
  refine ⟨?_, fun ds => runCoord_devices ds initState, by decide⟩
  intro ds
  rw [foldl_deviceStep_timeout, foldl_max_shift]
  rfl

/-- **C2** counterexample: with the single `timeout = 3` device, selection
has not returned three ticks after its arrival (the claim expects the
default entry A after about 3 seconds), and the effective timeout one device
in is 10, not the device maximum 3. -/
theorem c2_counterexample :
    (runCoord initState
      (Event.internal (InternalMsg.device devT3) ::
        List.replicate 3 (Event.internal InternalMsg.tick))).isFinished =
      false ∧
    (runCoord initState
      [Event.internal (InternalMsg.device devT3)]).currentState.map
      CoordState.timeout = some 10 := by
  constructor
  · decide
  · decide

/-! ## Claim C10: the 10-second floor -/

theorem runCoord_cons_running_running {s0 s1 s2 : CoordState} {e : Event}
    {es : List Event} {out tr2 : List Response}
    (hstep : stepCoord s0 e = .running s1 out)
    (hrun : runCoord s1 es = .running s2 tr2) :
    runCoord s0 (e :: es) = .running s2 (out ++ tr2) := by
  simp [runCoord, hstep, hrun]

theorem runCoord_cons_running_finished {s0 s1 : CoordState} {e : Event}
    {es : List Event} {r : SelectResult} {out tr2 : List Response}
    (hstep : stepCoord s0 e = .running s1 out)
    (hrun : runCoord s1 es = .finished r tr2) :
    runCoord s0 (e :: es) = .finished r (out ++ tr2) := by
  simp [runCoord, hstep, hrun]

theorem runCoord_cons_done {s0 : CoordState} {e : Event} {es : List Event}
    {r : SelectResult} {out : List Response}
    (hstep : stepCoord s0 e = .done r out) :
    runCoord s0 (e :: es) = .finished r out := by
  simp [runCoord, hstep]

theorem stepCoord_running_timeout (s : CoordState) (e : Event)
    (s2 : CoordState) (out : List Response)
    (h : stepCoord s e = .running s2 out) : s.timeout ≤ s2.timeout := by
  cases e with
  | request r =>
    cases r <;> simp only [stepCoord] at h <;> cases h <;> exact Nat.le_refl _
  | internal m =>
    cases m with
    | device d =>
      simp only [stepCoord] at h
      cases h
      rw [deviceStep_timeout]
      exact Nat.le_max_left _ _
    | tick =>
      simp only [stepCoord] at h
      by_cases hc : ¬s.hasUserInteraction ∧ s.clock + 1 - s.start ≥ s.timeout
      · rw [if_pos hc] at h
        cases hd : s.defaultEntry with
        | some e2 => rw [hd] at h; exact (CoordStep.noConfusion h)
        | none => rw [hd] at h; exact (CoordStep.noConfusion h)
      · rw [if_neg hc] at h
        cases h
        exact Nat.le_refl _

theorem runCoord_running_timeout (evs : List Event) :
    ∀ (s0 s : CoordState) (tr : List Response),
      runCoord s0 evs = .running s tr → s0.timeout ≤ s.timeout := by
  induction evs with
  | nil =>
    intro s0 s tr h
    simp only [runCoord] at h
    cases h
    exact Nat.le_refl _
  | cons e es ih =>
    intro s0 s tr h
    cases hstep : stepCoord s0 e with
    | running s1 out =>
      cases hrun : runCoord s1 es with
      | running s2 tr2 =>
        rw [runCoord_cons_running_running hstep hrun] at h
        cases h
        exact Nat.le_trans (stepCoord_running_timeout s0 e s1 out hstep)
          (ih _ _ _ hrun)
      | finished r tr2 =>
        rw [runCoord_cons_running_finished hstep hrun] at h
        exact (RunResult.noConfusion h)
    | done r out =>
      rw [runCoord_cons_done hstep] at h
      exact (RunResult.noConfusion h)

/-- **C10**: the coordinator's effective timeout starts at 10 seconds and
never decreases, so in every reachable state the timeout is at least 10 and a
`Tick` can only end selection (with the default entry or `NoDefaultEntry`)
when at least 10 seconds have elapsed since the countdown started — the
countdown restarting when the first device arrives. -/
theorem c10_ten_second_floor (pre : List Event) (s : CoordState)
    (tr : List Response) (hrun : runCoord initState pre = .running s tr) :
    10 ≤ s.timeout ∧
    (∀ r out, stepCoord s (.internal .tick) = .done r out →
      10 ≤ s.clock + 1 - s.start) := by
  have htimeout : 10 ≤ s.timeout :=
    runCoord_running_timeout pre initState s tr hrun
  refine ⟨htimeout, ?_⟩
  intro r out h
  simp only [stepCoord] at h
  by_cases hc : ¬s.hasUserInteraction ∧ s.clock + 1 - s.start ≥ s.timeout
  · exact Nat.le_trans htimeout hc.2
  · rw [if_neg hc] at h
    exact (CoordStep.noConfusion h)

/-- **C10** witness: after the `timeout = 3` device and nine ticks, the
state's timeout is still at least 10, and the tick that does end selection
does so with at least 10 seconds elapsed since the device arrived. -/
theorem c10_ten_second_floor_witness :
    10 ≤ nineTickState.timeout ∧
    (∀ r out, stepCoord nineTickState (.internal .tick) = .done r out →
      10 ≤ nineTickState.clock + 1 - nineTickState.start) :=
  c10_ten_second_floor
    (Event.internal (InternalMsg.device devT3) ::
      List.replicate 9 (Event.internal InternalMsg.tick))
    nineTickState nineTickTrace (by decide)

/-! ## Claim C8: `UserIsPresent` suppresses the timeout -/

theorem deviceStep_hasUserInteraction (s : CoordState) (d : Device) :
    (deviceStep s d).hasUserInteraction = s.hasUserInteraction := by
  simp only [deviceStep]
  split_ifs <;> simp_all

theorem stepCoord_user_flag (s : CoordState) (e : Event)
    (hu : s.hasUserInteraction = true) :
    (∀ s2 out, stepCoord s e = .running s2 out →
      s2.hasUserInteraction = true ∧
        ∀ d, Response.timeLeft (some d) ∉ out) ∧
    (∀ r out, stepCoord s e = .done r out →
      (∀ d, Response.timeLeft (some d) ∉ out) ∧
      (r = .errReboot ∨ r = .errPoweroff ∨
        ∃ en, r = .ok en ∧ e = .request (.boot en))) := by
  cases e with
  | request req =>
    cases req with
    | ping =>
      exact ⟨fun s2 out h => by cases h; simp [hu],
        fun r out h => (CoordStep.noConfusion h)⟩
    | startStreaming =>
      exact ⟨fun s2 out h => by cases h; simp [hu],
        fun r out h => (CoordStep.noConfusion h)⟩
    | stopStreaming =>
      exact ⟨fun s2 out h => by cases h; simp [hu],
        fun r out h => (CoordStep.noConfusion h)⟩
    | listBlockDevices =>
      exact ⟨fun s2 out h => by cases h; simp [hu],
        fun r out h => (CoordStep.noConfusion h)⟩
    | userIsPresent =>
      exact ⟨fun s2 out h => by cases h; simp,
        fun r out h => (CoordStep.noConfusion h)⟩
    | boot en =>
      refine ⟨fun s2 out h => (CoordStep.noConfusion h), fun r out h => ?_⟩
      cases h
      exact ⟨by simp, Or.inr (Or.inr ⟨en, rfl, rfl⟩)⟩
    | reboot =>
      refine ⟨fun s2 out h => (CoordStep.noConfusion h), fun r out h => ?_⟩
      cases h
      exact ⟨by simp, Or.inl rfl⟩
    | poweroff =>
      refine ⟨fun s2 out h => (CoordStep.noConfusion h), fun r out h => ?_⟩
      cases h
      exact ⟨by simp, Or.inr (Or.inl rfl)⟩
  | internal m =>
    cases m with
    | device d =>
      refine ⟨fun s2 out h => ?_, fun r out h => (CoordStep.noConfusion h)⟩
      cases h
      refine ⟨?_, by simp⟩
      rw [deviceStep_hasUserInteraction]
      exact hu
    | tick =>
      have hcond : ¬(¬s.hasUserInteraction ∧
          s.clock + 1 - s.start ≥ s.timeout) := by simp [hu]
      have hout : ¬(¬s.hasUserInteraction ∧
          s.timeout > s.clock + 1 - s.start) := by simp [hu]
      constructor
      · intro s2 out h
        simp only [stepCoord, if_neg hcond, if_neg hout] at h
        cases h
        exact ⟨hu, by simp⟩
      · intro r out h
        simp only [stepCoord, if_neg hcond, if_neg hout] at h
        exact (CoordStep.noConfusion h)

theorem runCoord_user_suppressed (evs : List Event) :
    ∀ s0 : CoordState, s0.hasUserInteraction = true →
      (∀ s tr, runCoord s0 evs = .running s tr →
        s.hasUserInteraction = true ∧
          ∀ d, Response.timeLeft (some d) ∉ tr) ∧
      (∀ r tr, runCoord s0 evs = .finished r tr →
        (∀ d, Response.timeLeft (some d) ∉ tr) ∧
        (r = .errReboot ∨ r = .errPoweroff ∨
          ∃ en, r = .ok en ∧ Event.request (Request.boot en) ∈ evs)) := by
  induction evs with
  | nil =>
    intro s0 hu
    constructor
    · intro s tr h
      simp only [runCoord] at h
      cases h
      exact ⟨hu, by simp⟩
    · intro r tr h
      simp only [runCoord] at h
      exact (RunResult.noConfusion h)
  | cons e es ih =>
    intro s0 hu
    constructor
    · intro s tr h
      cases hstep : stepCoord s0 e with
      | running s1 out =>
        cases hrun : runCoord s1 es with
        | running s2 tr2 =>
          rw [runCoord_cons_running_running hstep hrun] at h
          cases h
          have hstep2 := (stepCoord_user_flag s0 e hu).1 s1 out hstep
          have hih := (ih s1 hstep2.1).1 _ _ hrun
          refine ⟨hih.1, fun d hd => ?_⟩
          rcases List.mem_append.mp hd with h1 | h2
          · exact hstep2.2 d h1
          · exact hih.2 d h2
        | finished r tr2 =>
          rw [runCoord_cons_running_finished hstep hrun] at h
          exact (RunResult.noConfusion h)
      | done r out =>
        rw [runCoord_cons_done hstep] at h
        exact (RunResult.noConfusion h)
    · intro r tr h
      cases hstep : stepCoord s0 e with
      | running s1 out =>
        cases hrun : runCoord s1 es with
        | running s2 tr2 =>
          rw [runCoord_cons_running_running hstep hrun] at h
          exact (RunResult.noConfusion h)
        | finished r2 tr2 =>
          rw [runCoord_cons_running_finished hstep hrun] at h
          cases h
          have hstep2 := (stepCoord_user_flag s0 e hu).1 s1 out hstep
          have hih := (ih s1 hstep2.1).2 _ _ hrun
          refine ⟨fun d hd => ?_, ?_⟩
          · rcases List.mem_append.mp hd with h1 | h2
            · exact hstep2.2 d h1
            · exact hih.1 d h2
          · rcases hih.2 with h1 | h2 | ⟨en, he, hmem⟩
            · exact Or.inl h1
            · exact Or.inr (Or.inl h2)
            · exact Or.inr (Or.inr ⟨en, he, List.mem_cons_of_mem e hmem⟩)
      | done r2 out =>
        rw [runCoord_cons_done hstep] at h
        cases h
        have hstep2 := (stepCoord_user_flag s0 e hu).2 _ _ hstep
        refine ⟨hstep2.1, ?_⟩
        rcases hstep2.2 with h1 | h2 | ⟨en, he, hev⟩
        · exact Or.inl h1
        · exact Or.inr (Or.inl h2)
        · exact Or.inr (Or.inr ⟨en, he, hev ▸ List.mem_cons_self e es⟩)

theorem runCoord_snoc_running (evs : List Event) :
    ∀ (s0 s : CoordState) (tr : List Response) (e : Event),
      runCoord s0 (evs ++ [e]) = .running s tr →
      ∃ s1 tr1 out, runCoord s0 evs = .running s1 tr1 ∧
        stepCoord s1 e = .running s out ∧ tr = tr1 ++ out := by
  induction evs with
  | nil =>
    intro s0 s tr e h
    simp only [List.nil_append, runCoord] at h
    cases hstep : stepCoord s0 e with
    | running s2 out =>
      rw [hstep] at h
      simp only [runCoord] at h
      cases h
      exact ⟨s0, [], out, rfl, hstep, by simp⟩
    | done r out => rw [hstep] at h; exact (RunResult.noConfusion h)
  | cons f evs ih =>
    intro s0 s tr e h
    rw [List.cons_append] at h
    cases hstep : stepCoord s0 f with
    | running s1 out1 =>
      cases hrun : runCoord s1 (evs ++ [e]) with
      | running s2 tr2 =>
        rw [runCoord_cons_running_running hstep hrun] at h
        cases h
        obtain ⟨s3, tr3, out3, h1, h2, h3⟩ := ih _ _ _ e hrun
        exact ⟨s3, out1 ++ tr3, out3,
          runCoord_cons_running_running hstep h1, h2, by simp [h3]⟩
      | finished r tr2 =>
        rw [runCoord_cons_running_finished hstep hrun] at h
        exact (RunResult.noConfusion h)
    | done r out =>
      rw [runCoord_cons_done hstep] at h
      exact (RunResult.noConfusion h)

/-- **C8**: once a `UserIsPresent` request is processed, a `TimeLeft(None)`
is broadcast and the user-interaction flag is set; from then on no later
event ever broadcasts a `TimeLeft(Some _)` (in particular no Tick does), no
Tick ends selection, and selection ends only through an explicit `Boot`
request (returning exactly its entry), `Reboot`, or `Poweroff`. -/
theorem c8_user_is_present (pre post : List Event) (s : CoordState)
    (tr : List Response)
    (hrun : runCoord initState
      (pre ++ [Event.request Request.userIsPresent]) = .running s tr) :
    Response.timeLeft none ∈ tr ∧
    s.hasUserInteraction = true ∧
    (∀ s2 tr2, runCoord s post = .running s2 tr2 →
      ∀ d, Response.timeLeft (some d) ∉ tr2) ∧
    (∀ r tr2, runCoord s post = .finished r tr2 →
      (∀ d, Response.timeLeft (some d) ∉ tr2) ∧
      (r = .errReboot ∨ r = .errPoweroff ∨
        ∃ en, r = .ok en ∧ Event.request (Request.boot en) ∈ post)) := by
  obtain ⟨s1, tr1, out, h1, h2, h3⟩ :=
    runCoord_snoc_running pre initState s tr _ hrun
  subst h3
  have hstep : stepCoord s1 (Event.request Request.userIsPresent) =
      .running { s1 with hasUserInteraction := true }
        [Response.timeLeft none] := rfl
  rw [hstep] at h2
  cases h2
  refine ⟨by simp, rfl, ?_, ?_⟩
  · exact fun s2 tr2 h =>
      ((runCoord_user_suppressed post _ rfl).1 s2 tr2 h).2
  · exact fun r tr2 h => (runCoord_user_suppressed post _ rfl).2 r tr2 h

/-- **C8** witness: with `UserIsPresent` as the only processed event, the
`TimeLeft(None)` broadcast appears, the flag is set, and a subsequent tick
followed by `Reboot` ends the run with the reboot sentinel only. -/
theorem c8_user_is_present_witness :
    Response.timeLeft none ∈ [Response.timeLeft none] ∧
    userEngagedState.hasUserInteraction = true ∧
    (∀ s2 tr2, runCoord userEngagedState
        [Event.internal InternalMsg.tick, Event.request Request.reboot] =
        .running s2 tr2 → ∀ d, Response.timeLeft (some d) ∉ tr2) ∧
    (∀ r tr2, runCoord userEngagedState
        [Event.internal InternalMsg.tick, Event.request Request.reboot] =
        .finished r tr2 →
      (∀ d, Response.timeLeft (some d) ∉ tr2) ∧
      (r = .errReboot ∨ r = .errPoweroff ∨
        ∃ en, r = .ok en ∧ Event.request (Request.boot en) ∈
          [Event.internal InternalMsg.tick, Event.request Request.reboot])) :=
  c8_user_is_present []
    [Event.internal InternalMsg.tick, Event.request Request.reboot]
    userEngagedState [Response.timeLeft none] (by decide)

/-! ## Claim C9: per-connection streaming queue -/

/-- **C9** (amended): each connection's streaming flag starts off with an
empty queue; while the flag is off, `NewDevice` and `TimeLeft` broadcasts are
not sent but appended to the per-connection FIFO — which is *unbounded*, not
bounded — and a `StartStreaming` flushes the whole queue to the client in
order; every other response type is sent immediately regardless of the
flag. -/
theorem c9_streaming_queue :
    (initClient.streaming = false ∧ initClient.unsentEvents = []) ∧
    (∀ st msg, st.streaming = false → isQueuedKind msg = true →
      clientStep st (.broadcast msg) =
        ⟨{ st with unsentEvents := st.unsentEvents ++ [msg] }, [], []⟩) ∧
    (∀ st, clientStep st (.fromClient .startStreaming) =
      ⟨{ streaming := true, unsentEvents := [] }, st.unsentEvents, []⟩) ∧
    (∀ st msg, isQueuedKind msg = false →
      clientStep st (.broadcast msg) = ⟨st, [msg], []⟩) := by
  refine ⟨⟨rfl, rfl⟩, ?_, fun st => rfl, ?_⟩
  · intro st msg h1 h2
    simp [clientStep, h1, h2]
  · intro st msg h
    simp [clientStep, h]

/-- **C9** witness: with streaming off, a `TimeLeft` broadcast is queued at
the back of the FIFO and nothing is sent or forwarded. -/
theorem c9_streaming_queue_witness :
    clientStep { streaming := false, unsentEvents := [Response.pong] }
      (.broadcast (Response.timeLeft (some 5))) =
      ⟨{ streaming := false,
         unsentEvents := [Response.pong, Response.timeLeft (some 5)] },
       [], []⟩ :=
  (c9_streaming_queue).2.1
    { streaming := false, unsentEvents := [Response.pong] }
    (Response.timeLeft (some 5)) rfl rfl

theorem clientRun_replicate_queue (n : Nat) :
    ∀ st : ClientState, st.streaming = false →
      (clientRun st (List.replicate n
        (.broadcast (Response.timeLeft none)))).unsentEvents.length =
        st.unsentEvents.length + n := by
  induction n with
  | zero => intro st h; simp [clientRun]
  | succ m ih =>
    intro st h
    simp only [List.replicate_succ, clientRun]
    rw [show (clientStep st (.broadcast (Response.timeLeft none))).state =
        { st with unsentEvents :=
          st.unsentEvents ++ [Response.timeLeft none] } by
      simp [clientStep, isQueuedKind, h]]
    rw [ih { st with unsentEvents :=
        st.unsentEvents ++ [Response.timeLeft none] } h]
    simp
    omega

/-- **C9** counterexample: the per-connection FIFO is *not* bounded — for
every proposed bound `B`, a run of `B + 1` `TimeLeft` broadcasts with
streaming off leaves `B + 1` queued messages. -/
theorem c9_counterexample :
    ¬ ∃ B : Nat, ∀ evs : List ClientEvent,
      (clientRun initClient evs).unsentEvents.length ≤ B := by
  rintro ⟨B, hB⟩
  have h := hB (List.replicate (B + 1)
    (.broadcast (Response.timeLeft none)))
  rw [clientRun_replicate_queue (B + 1) initClient rfl] at h
  simp [initClient] at h

end Tinyboot
